import Mathlib

/-!
Shallow embedding of the core of the `enhance-align-stable-ts` repository:
the segment validity filter (`src/validSegmentsExtractor.ts`), the
task-queue worker (`src/rabbitmqWorker.ts`) and the message validation it
performs, together with theorems settling the specification claims.

Numbers: JavaScript `number` values are modelled as rationals (ℚ); the
probabilities involved are small decimal fractions, for which rational
arithmetic agrees with the double-precision results at every concrete
input used below.  Console logging (`console.log` / `console.warn`) is
modelled as an explicit list of log events so that theorems can speak
about which decisions are traced and show that tracing never changes a
returned value.
-/

namespace EnhanceAlign

/-- One confidence-scored token of a `TextSegment`
(`{token, probability}` in the source's data model). -/
structure Word where
  token : String
  probability : ℚ
deriving DecidableEq, Repr

/-- A timed text segment (`TextSegment` in `src/segment.ts` as described by the
data model: start/end timestamps, raw text, ordered word list).  A missing or
`undefined` `words` array in JavaScript is modelled by the empty list, which the
source treats identically (`!segment.words || segment.words.length === 0`). -/
structure TextSegment where
  startTime : ℚ
  endTime : ℚ
  rawText : String
  words : List Word
deriving DecidableEq, Repr

/-- Constructor parameters of `ValidSegmentsExtractor`
(`probabilityThreshold`, `enableDebugLogging` with default `false`). -/
structure ExtractorConfig where
  probabilityThreshold : ℚ
  enableDebugLogging : Bool := false
deriving DecidableEq, Repr

/-- Model of `+(x).toFixed(3)` in `calculateAverageProbability`: rounding to 3
decimal places, to the nearest thousandth with halves away from zero (all the
values rounded by the source are non-negative averages of probabilities, so
half-away-from-zero is `⌊x·1000 + 1/2⌋ / 1000`). -/
def round3 (q : ℚ) : ℚ := (⌊q * 1000 + 1/2⌋ : ℚ) / 1000

/-- Model of JavaScript `String.prototype.trim()`: strip leading and trailing
whitespace.  Written structurally over the string's character list. -/
def jsTrim (s : String) : String :=
  ⟨((s.data.dropWhile Char.isWhitespace).reverse.dropWhile Char.isWhitespace).reverse⟩

namespace ValidSegmentsExtractor

/-- The validation decisions traced by `logValidation` in the source (there the
payload of a `console.log` template string; here an explicit datatype). -/
inductive ValidationStatus where
  | rejectedTermination
  | rejectedNoWords
  | acceptedSpecialCase
  | acceptedWithinThreshold
  | rejectedProbabilityTooLow (avgProbability threshold : ℚ)
deriving DecidableEq, Repr

/-- A debug-log line: either a `logValidation` status line or a
`logValidationDetails` line, both carrying the trimmed segment text. -/
inductive LogEvent where
  | validationStatus (text : String) (status : ValidationStatus)
  | validationDetails (text : String) (avgProbability : ℚ)
deriving DecidableEq, Repr

/-- `calculateAverageProbability`: 0 for an empty list, otherwise the
`reduce`-computed sum of probabilities divided by the count and rounded to
3 decimal places via `toFixed(3)` (modelled by `round3`). -/
def calculateAverageProbability (words : List Word) : ℚ :=
  if words.length = 0 then 0
  else
    let totalProbability := words.foldl (fun sum word => sum + word.probability) 0
    round3 (totalProbability / (words.length : ℚ))

/-- `isEndSegment`: a segment is an end/termination segment iff its
`endTime` equals its `startTime`. -/
def isEndSegment (segment : TextSegment) : Bool :=
  decide (segment.endTime = segment.startTime)

/-- `logValidation`: emits one status line when `enableDebugLogging` is set,
nothing otherwise. -/
def logValidation (cfg : ExtractorConfig) (segment : TextSegment)
    (status : ValidationStatus) : List LogEvent :=
  if cfg.enableDebugLogging then [.validationStatus (jsTrim segment.rawText) status] else []

/-- `logValidationDetails`: emits one details line (average probability and
trimmed text) when `enableDebugLogging` is set, nothing otherwise. -/
def logValidationDetails (cfg : ExtractorConfig) (segment : TextSegment)
    (avgProbability : ℚ) : List LogEvent :=
  if cfg.enableDebugLogging then [.validationDetails (jsTrim segment.rawText) avgProbability] else []

/-- `isSegmentValid` together with the log lines it emits, mirroring the
source's order of checks: termination segment, empty `words`, then the
short-text/zero-probability special case, then the strict threshold
comparison. -/
def isSegmentValidLog (cfg : ExtractorConfig) (segment : TextSegment) :
    Bool × List LogEvent :=
  if isEndSegment segment then
    (false, logValidation cfg segment .rejectedTermination)
  else if segment.words.length = 0 then
    (false, logValidation cfg segment .rejectedNoWords)
  else
    let avgProbability := calculateAverageProbability segment.words
    let textLength := (jsTrim segment.rawText).length
    let details := logValidationDetails cfg segment avgProbability
    if textLength ≤ 2 ∧ avgProbability = 0 then
      (true, details ++ logValidation cfg segment .acceptedSpecialCase)
    else
      let isValid := decide (avgProbability > cfg.probabilityThreshold)
      (isValid,
        details ++ logValidation cfg segment
          (if isValid then .acceptedWithinThreshold
           else .rejectedProbabilityTooLow avgProbability cfg.probabilityThreshold))

/-- The boolean verdict of `isSegmentValid` (the source's return value; logging
is the only other effect). -/
def isSegmentValid (cfg : ExtractorConfig) (segment : TextSegment) : Bool :=
  (isSegmentValidLog cfg segment).1

/-- `extractValidSegments` with its log: walks the list in order, appending
segments while they are valid and stopping (`break`) at the first invalid
segment. -/
def extractValidSegmentsLog (cfg : ExtractorConfig) :
    List TextSegment → List TextSegment × List LogEvent
  | [] => ([], [])
  | segment :: rest =>
    let r := isSegmentValidLog cfg segment
    if r.1 then
      let tail := extractValidSegmentsLog cfg rest
      (segment :: tail.1, r.2 ++ tail.2)
    else
      ([], r.2)

/-- The list returned by `extractValidSegments`. -/
def extractValidSegments (cfg : ExtractorConfig) (segments : List TextSegment) :
    List TextSegment :=
  (extractValidSegmentsLog cfg segments).1

/-- `loadSegmentsFromFile`: the file read and the JSON parse both happen inside
one `try`; any failure is caught, logged, and the empty list is returned.  The
two fallible steps are passed in as explicit outcomes (`Except`), since file
I/O and `JSON.parse` are external to the function's own logic. -/
def loadSegmentsFromFile (readFile : Except String String)
    (parseSegments : String → Except String (List TextSegment)) :
    List TextSegment :=
  match readFile >>= parseSegments with
  | .ok segments => segments
  | .error _ => []

end ValidSegmentsExtractor

namespace Worker

/-- The inbound job message shape (`RequestData` in `src/rabbitmqWorker.ts`):
`{correlationId, referenceTexts, fileClaimCheck}`. -/
structure RequestData where
  correlationId : String
  referenceTexts : List String
  fileClaimCheck : String
deriving DecidableEq, Repr

/-- The outbound response message (`ResponseData` in `src/rabbitmqWorker.ts`):
the spread of the request's fields plus `status` and `timestamp`.  Because the
TypeScript type is an open record (`extends Record<string, unknown>`) and the
external response-topic shape allows an optional `segments` key, the model
carries `segments : Option (List TextSegment)`; the spread of a `RequestData`
contributes no `segments` key, i.e. `none`. -/
structure ResponseData where
  correlationId : String
  referenceTexts : List String
  fileClaimCheck : String
  status : String
  timestamp : String
  segments : Option (List TextSegment) := none
deriving DecidableEq, Repr

/-- `validateMessage`: `false` for a null/unparsable payload (`!requestData`),
`false` when `correlationId` is missing or empty (both are falsy in
JavaScript, and a missing JSON key reads back as the falsy `undefined`;
modelled as the empty string), `true` otherwise. -/
def validateMessage : Option RequestData → Bool
  | none => false
  | some requestData => decide (¬ requestData.correlationId = "")

/-- The observable effects of one `processAndRespondToKafka` run: which blob
name was passed to `storage.downloadFile`, the local path it was asked to
write to, and the message published to the Kafka response topic (`none` when
the `catch` branch swallowed an error and nothing was sent). -/
structure WorkerResult where
  downloadName : String
  downloadPath : String
  published : Option ResponseData
deriving DecidableEq, Repr

/-- Model of `path.join(tempDir, name)` on POSIX for a plain file name. -/
def pathJoin (dir name : String) : String := dir ++ "/" ++ name

/-- `processAndRespondToKafka`: resolves the temp path from the claim-check
name, downloads the blob of that name, and on success publishes
`{...requestData, status: "Processed", timestamp}` to the response topic; any
error is caught and nothing is published.  The system temp directory
(`os.tmpdir()`), the download outcome of the storage client, and the current
time (`new Date().toISOString()`) are the function's environment and are
passed in explicitly. -/
def processAndRespondToKafka (tempDir : String)
    (downloadOutcome : Except String Unit) (now : String)
    (requestData : RequestData) : WorkerResult :=
  let tempFilePath := pathJoin tempDir requestData.fileClaimCheck
  match downloadOutcome with
  | .error _ =>
    { downloadName := requestData.fileClaimCheck
      downloadPath := tempFilePath
      published := none }
  | .ok _ =>
    let responseData : ResponseData :=
      { correlationId := requestData.correlationId
        referenceTexts := requestData.referenceTexts
        fileClaimCheck := requestData.fileClaimCheck
        status := "Processed"
        timestamp := now }
    { downloadName := requestData.fileClaimCheck
      downloadPath := tempFilePath
      published := some responseData }

/-- Result of handling one task-queue delivery: whether the message was
acknowledged, and the worker effects (`none` when `processAndRespondToKafka`
was never invoked). -/
structure HandlerResult where
  acked : Bool
  worker : Option WorkerResult
deriving DecidableEq, Repr

/-- Modelled from the spec: `rabbitMqMessageHandler` lives in
`src/amqp/amqpConsumer.ts`, which is not among the provided sources; only its
call site `rabbitMqMessageHandler(amqpChannel, validateMessage,
processAndRespondToKafka)` is.  Per the spec's worker design it parses the
payload, applies the validator, and on validation failure
acknowledges-and-drops without invoking the processor; on success it invokes
the processor and acknowledges only after the response has been published. -/
def rabbitMqMessageHandler (tempDir : String)
    (downloadOutcome : Except String Unit) (now : String)
    (parsed : Option RequestData) : HandlerResult :=
  if validateMessage parsed then
    match parsed with
    | some requestData =>
      let w := processAndRespondToKafka tempDir downloadOutcome now requestData
      { acked := w.published.isSome, worker := some w }
    | none => { acked := true, worker := none }
  else
    { acked := true, worker := none }

end Worker

/-! ## Helper lemmas -/

open ValidSegmentsExtractor Worker

/-- `round3` evaluated through bounds on the scaled value. -/
theorem round3_eq_of_bounds (q : ℚ) (z : ℤ) (h1 : (z : ℚ) ≤ q * 1000 + 1/2)
    (h2 : q * 1000 + 1/2 < z + 1) : round3 q = (z : ℚ) / 1000 := by
  unfold round3
  rw [Int.floor_eq_iff.mpr ⟨h1, h2⟩]

/-- `reduce((sum, word) => sum + word.probability, 0)` computes the sum of the
probabilities. -/
theorem foldl_add_probability (words : List Word) (a : ℚ) :
    words.foldl (fun sum word => sum + word.probability) a
      = a + (words.map Word.probability).sum := by
  induction words generalizing a with
  | nil => simp
  | cons w ws ih => simp [List.foldl, ih]; ring

/-- The verdict of `isSegmentValid` does not depend on `enableDebugLogging`. -/
theorem isSegmentValidLog_fst_flag (th : ℚ) (b₁ b₂ : Bool) (s : TextSegment) :
    (isSegmentValidLog ⟨th, b₁⟩ s).1 = (isSegmentValidLog ⟨th, b₂⟩ s).1 := by
  by_cases h1 : isEndSegment s = true
  · simp [isSegmentValidLog, h1]
  · by_cases h2 : s.words.length = 0
    · simp [isSegmentValidLog, h1, h2]
    · by_cases h3 : (jsTrim s.rawText).length ≤ 2 ∧ calculateAverageProbability s.words = 0
      · simp [isSegmentValidLog, h1, h2, h3]
      · simp [isSegmentValidLog, h1, h2, h3]

/-- The segment list produced by the extraction loop is the longest run of
valid segments, i.e. a `takeWhile`. -/
theorem extractLog_fst_eq_takeWhile (cfg : ExtractorConfig) (segments : List TextSegment) :
    (extractValidSegmentsLog cfg segments).1
      = segments.takeWhile (fun s => isSegmentValid cfg s) := by
  induction segments with
  | nil => rfl
  | cons s rest ih =>
    rw [List.takeWhile_cons]
    by_cases h : (isSegmentValidLog cfg s).1 = true
    · simp [extractValidSegmentsLog, isSegmentValid, h, ih]
    · simp [extractValidSegmentsLog, isSegmentValid, h]

/-- `extractValidSegments` as a `takeWhile`. -/
theorem extractValidSegments_eq_takeWhile (cfg : ExtractorConfig)
    (segments : List TextSegment) :
    extractValidSegments cfg segments
      = segments.takeWhile (fun s => isSegmentValid cfg s) :=
  extractLog_fst_eq_takeWhile cfg segments

/-- If the predicate fails at index `k`, the `takeWhile` keeps at most `k`
elements. -/
theorem takeWhile_length_le_of_false {α : Type} (p : α → Bool) (l : List α)
    (k : Nat) (hk : k < l.length) (h : p (l.get ⟨k, hk⟩) = false) :
    (l.takeWhile p).length ≤ k := by
  induction l generalizing k with
  | nil => simp at hk
  | cons a l ih =>
    cases k with
    | zero =>
      simp only [List.get] at h
      simp [List.takeWhile_cons, h]
    | succ k =>
      by_cases ha : p a = true
      · simp only [List.takeWhile_cons, ha, if_true, List.length_cons]
        exact Nat.succ_le_succ (ih k (Nat.lt_of_succ_lt_succ hk) h)
      · simp [List.takeWhile_cons, ha]

/-- If the predicate holds on the first `k` elements and fails at index `k`,
the `takeWhile` is exactly the first `k` elements. -/
theorem takeWhile_eq_take_of_false {α : Type} (p : α → Bool) (l : List α)
    (k : Nat) (hk : k < l.length) (hall : (l.take k).all p = true)
    (h : p (l.get ⟨k, hk⟩) = false) :
    l.takeWhile p = l.take k := by
  induction l generalizing k with
  | nil => simp at hk
  | cons a l ih =>
    cases k with
    | zero =>
      simp only [List.get] at h
      simp [List.takeWhile_cons, h]
    | succ k =>
      simp only [List.take, List.all_cons, Bool.and_eq_true] at hall
      simp only [List.takeWhile_cons, hall.1, if_true, List.take]
      rw [ih k (Nat.lt_of_succ_lt_succ hk) hall.2 h]

/-! ## Concrete fixtures (used by witnesses and counterexamples) -/

/-- A plainly valid segment: average probability 0.9, as in the spec's
end-to-end scenario. -/
def segHi : TextSegment := ⟨0, 1, "hi", [⟨"hi", 9/10⟩]⟩

/-- An end-marker segment (`startTime == endTime`). -/
def segEnd : TextSegment := ⟨1, 1, "", []⟩

/-- A valid segment appearing after the fixtures above. -/
def segYo : TextSegment := ⟨1, 2, "yo", [⟨"yo", 9/10⟩]⟩

/-- A short-text segment whose single word has probability 0. -/
def segA : TextSegment := ⟨0, 1, "a", [⟨"a", 0⟩]⟩

/-- The job of the spec's end-to-end scenario. -/
def req1 : RequestData := ⟨"c1", ["a"], "f1.wav"⟩

theorem avg_segHi : calculateAverageProbability segHi.words = 9/10 := by
  simp only [segHi, calculateAverageProbability, List.foldl, List.length]
  norm_num
  rw [round3_eq_of_bounds (9/10) 900 (by norm_num) (by norm_num)]
  norm_num

theorem avg_segA : calculateAverageProbability segA.words = 0 := by
  simp only [segA, calculateAverageProbability, List.foldl, List.length]
  norm_num
  rw [round3_eq_of_bounds 0 0 (by norm_num) (by norm_num)]
  norm_num

theorem isSegmentValid_segHi : isSegmentValid ⟨1/2, false⟩ segHi = true := by
  simp only [isSegmentValid, isSegmentValidLog, isEndSegment, avg_segHi]
  norm_num [segHi]

theorem isSegmentValid_segEnd (cfg : ExtractorConfig) :
    isSegmentValid cfg segEnd = false := by
  simp [isSegmentValid, isSegmentValidLog, isEndSegment, segEnd]

/-! ## Claim theorems -/

/-- C1: `extractValidSegments` returns a contiguous leading run of the input —
its output is a list-prefix of the input (never reordered, never skipping a
segment to reach a later valid one) — and whenever the first `k` segments are
valid and the segment at position `k` is invalid, the output is exactly the
first `k` segments, so nothing at or beyond the first invalid segment appears
in the output even if it would individually be valid. -/
theorem extractValidSegments_prefix_spec (cfg : ExtractorConfig)
    (segments : List TextSegment) :
    extractValidSegments cfg segments <+: segments ∧
    ∀ k, (hk : k < segments.length) →
      (segments.take k).all (fun s => isSegmentValid cfg s) = true →
      isSegmentValid cfg (segments.get ⟨k, hk⟩) = false →
      extractValidSegments cfg segments = segments.take k := by
  rw [extractValidSegments_eq_takeWhile]
  constructor
  · exact List.takeWhile_prefix _
  · intro k hk hall h
    exact takeWhile_eq_take_of_false _ segments k hk hall h

/-- C1 witness: on `[segHi, segEnd, segYo]` with threshold 1/2 the first
segment is valid, the second invalid, and the output is exactly the one-element
prefix, dropping the valid `segYo` that follows the invalid segment. -/
theorem extractValidSegments_prefix_spec_witness :
    extractValidSegments ⟨1/2, false⟩ [segHi, segEnd, segYo]
      = [segHi, segEnd, segYo].take 1 :=
  (extractValidSegments_prefix_spec ⟨1/2, false⟩ [segHi, segEnd, segYo]).2 1
    (by simp)
    (by
      have h : [segHi, segEnd, segYo].take 1 = [segHi] := rfl
      rw [h, List.all_cons, isSegmentValid_segHi, List.all_nil]
      rfl)
    (isSegmentValid_segEnd ⟨1/2, false⟩)

/-- C3: a segment with `startTime == endTime` (end marker) or an empty `words`
sequence is judged invalid, and when such a segment sits at position `k` the
filter's output has length at most `k`, regardless of the segments that
follow. -/
theorem extractValidSegments_terminates_at_marker (cfg : ExtractorConfig)
    (segments : List TextSegment) (k : Nat) (hk : k < segments.length)
    (h : isEndSegment (segments.get ⟨k, hk⟩) = true ∨
      (segments.get ⟨k, hk⟩).words = []) :
    isSegmentValid cfg (segments.get ⟨k, hk⟩) = false ∧
    (extractValidSegments cfg segments).length ≤ k := by
  have hgen : ∀ s : TextSegment, isEndSegment s = true ∨ s.words = [] →
      isSegmentValid cfg s = false := by
    intro s hs
    rcases hs with hs | hs
    · simp [isSegmentValid, isSegmentValidLog, hs]
    · by_cases he : isEndSegment s = true
      · simp [isSegmentValid, isSegmentValidLog, he]
      · simp [isSegmentValid, isSegmentValidLog, he, hs]
  have hinvalid : isSegmentValid cfg (segments.get ⟨k, hk⟩) = false :=
    hgen (segments.get ⟨k, hk⟩) h
  refine ⟨hinvalid, ?_⟩
  rw [extractValidSegments_eq_takeWhile]
  exact takeWhile_length_le_of_false _ segments k hk hinvalid

/-- C3 witness: with the end marker `segEnd` at position 1 of
`[segHi, segEnd, segYo]`, it is judged invalid and the output length is at
most 1. -/
theorem extractValidSegments_terminates_at_marker_witness :
    isSegmentValid ⟨1/2, false⟩ ([segHi, segEnd, segYo].get ⟨1, by simp⟩) = false ∧
    (extractValidSegments ⟨1/2, false⟩ [segHi, segEnd, segYo]).length ≤ 1 :=
  extractValidSegments_terminates_at_marker ⟨1/2, false⟩ [segHi, segEnd, segYo] 1
    (by simp) (Or.inl (by simp [segEnd, isEndSegment]))

/-- C2 counterexample: with `probabilityThreshold = 0`, the segment `segA`
(not an end marker, non-empty words, trimmed text length 1, average
probability 0) has average probability *equal* to the threshold and is
nevertheless judged **valid** (short-text zero-probability special case), so
the claim's clause "a segment whose average probability equals the threshold
is invalid" is false as stated. -/
theorem isSegmentValid_eq_threshold_cex :
    isEndSegment segA = false ∧
    segA.words ≠ [] ∧
    calculateAverageProbability segA.words
      = (⟨0, false⟩ : ExtractorConfig).probabilityThreshold ∧
    isSegmentValid ⟨0, false⟩ segA = true := by
  refine ⟨by decide, by decide, ?_, ?_⟩
  · exact avg_segA
  · simp only [isSegmentValid, isSegmentValidLog, isEndSegment, avg_segA]
    norm_num [segA]
    rw [if_pos (by decide : (jsTrim "a").length ≤ 2)]

/-- C2 (amended): for a segment that is not an end marker and has non-empty
words, the verdict is valid iff the trimmed `rawText` length is ≤ 2 and the
average probability is 0, or the average probability strictly exceeds the
threshold; a segment whose average probability equals the threshold **and
does not meet the short-text zero-probability special case** is invalid; and
the special case is accepted regardless of the threshold (in particular when
it is positive). -/
theorem isSegmentValid_iff_spec (cfg : ExtractorConfig) (s : TextSegment)
    (h1 : isEndSegment s = false) (h2 : s.words ≠ []) :
    (isSegmentValid cfg s = true ↔
      ((jsTrim s.rawText).length ≤ 2 ∧ calculateAverageProbability s.words = 0) ∨
      calculateAverageProbability s.words > cfg.probabilityThreshold) ∧
    (calculateAverageProbability s.words = cfg.probabilityThreshold →
      ¬ ((jsTrim s.rawText).length ≤ 2 ∧ calculateAverageProbability s.words = 0) →
      isSegmentValid cfg s = false) ∧
    ((jsTrim s.rawText).length ≤ 2 → calculateAverageProbability s.words = 0 →
      isSegmentValid cfg s = true) := by
  have hlen : ¬ s.words.length = 0 := by
    simpa [List.length_eq_zero] using h2
  have hiff : isSegmentValid cfg s = true ↔
      ((jsTrim s.rawText).length ≤ 2 ∧ calculateAverageProbability s.words = 0) ∨
      calculateAverageProbability s.words > cfg.probabilityThreshold := by
    by_cases h3 : (jsTrim s.rawText).length ≤ 2 ∧ calculateAverageProbability s.words = 0
    · simp [isSegmentValid, isSegmentValidLog, h1, hlen, h3]
    · simp [isSegmentValid, isSegmentValidLog, h1, hlen, h3, gt_iff_lt]
  refine ⟨hiff, ?_, ?_⟩
  · intro heq h3
    rw [Bool.eq_false_iff]
    intro htrue
    rcases hiff.mp htrue with hcase | hcase
    · exact h3 hcase
    · exact absurd heq (ne_of_gt hcase)
  · intro hshort hzero
    exact hiff.mpr (Or.inl ⟨hshort, hzero⟩)

/-- C2 witness: the special case fires for `segA` even with the positive
threshold 1/2: trimmed length 1, average probability 0, judged valid. -/
theorem isSegmentValid_iff_spec_witness :
    isSegmentValid ⟨1/2, false⟩ segA = true :=
  (isSegmentValid_iff_spec ⟨1/2, false⟩ segA (by decide) (by decide)).2.2
    (by decide) avg_segA

/-- C6: for a non-empty word list, `calculateAverageProbability` is the
arithmetic mean of the probabilities rounded to 3 decimal places, and on
`[{probability: 0.1}, {probability: 0.2}, {probability: 0.3}]` it returns
exactly 0.200. -/
theorem calculateAverageProbability_spec (words : List Word) (h : words ≠ []) :
    calculateAverageProbability words
      = round3 ((words.map Word.probability).sum / (words.length : ℚ)) ∧
    calculateAverageProbability [⟨"a", 1/10⟩, ⟨"b", 2/10⟩, ⟨"c", 3/10⟩]
      = 200/1000 := by
  constructor
  · have hlen : ¬ words.length = 0 := by
      simpa [List.length_eq_zero] using h
    simp only [calculateAverageProbability, hlen, if_false,
      foldl_add_probability, zero_add]
  · simp only [calculateAverageProbability, List.foldl, List.length]
    norm_num
    rw [round3_eq_of_bounds (1/5) 200 (by norm_num) (by norm_num)]
    norm_num

/-- C6 witness: instantiated at the one-word list `[{probability: 0.9}]`. -/
theorem calculateAverageProbability_spec_witness :
    calculateAverageProbability [⟨"hi", 9/10⟩]
      = round3 ((([⟨"hi", 9/10⟩] : List Word).map Word.probability).sum
          / (([⟨"hi", 9/10⟩] : List Word).length : ℚ)) :=
  (calculateAverageProbability_spec [⟨"hi", 9/10⟩] (by decide)).1

/-- C7: `extractValidSegments` is a pure function of the input list and the
probability threshold — in the logging-instrumented embedding the returned
list is identical whether `enableDebugLogging` is `true` or `false` (the flag
only changes the emitted trace, never the result). -/
theorem extractValidSegments_log_independent (th : ℚ) (b₁ b₂ : Bool)
    (segments : List TextSegment) :
    extractValidSegments ⟨th, b₁⟩ segments = extractValidSegments ⟨th, b₂⟩ segments := by
  unfold extractValidSegments
  induction segments with
  | nil => rfl
  | cons s rest ih =>
    simp only [extractValidSegmentsLog]
    rw [isSegmentValidLog_fst_flag th b₁ b₂ s]
    by_cases h : (isSegmentValidLog ⟨th, b₂⟩ s).1 = true
    · simp only [h, if_true, ih]
    · simp only [Bool.not_eq_true] at h
      simp only [h, Bool.false_eq_true, if_false]

/-- C4 counterexample: on the end-to-end scenario job with a successful
download, the worker publishes `{...requestData, status: "Processed",
timestamp}` with **no** `segments` key, even though the Segment Validity
Filter applied to the scenario's processing output `[segHi]` would have kept
`[segHi]`: the filter is never invoked and no filtered segments are merged
into the published payload, refuting the claim as stated. -/
theorem processAndRespond_no_segments_cex :
    (processAndRespondToKafka "/tmp" (Except.ok ()) "2026-01-01T00:00:00.000Z"
        req1).published
      = some { correlationId := "c1", referenceTexts := ["a"],
               fileClaimCheck := "f1.wav", status := "Processed",
               timestamp := "2026-01-01T00:00:00.000Z", segments := none } ∧
    ((processAndRespondToKafka "/tmp" (Except.ok ()) "2026-01-01T00:00:00.000Z"
        req1).published.bind ResponseData.segments) = none ∧
    extractValidSegments ⟨1/2, false⟩ [segHi] = [segHi] := by
  refine ⟨rfl, rfl, ?_⟩
  simp only [extractValidSegments, extractValidSegmentsLog]
  rw [show (isSegmentValidLog ⟨1/2, false⟩ segHi).1 = true from isSegmentValid_segHi]
  rfl

/-- C4 (amended): for every job whose payload download succeeds, the worker
publishes to the response topic a message carrying exactly the original job
fields, `status = "Processed"` and the current timestamp; the Segment
Validity Filter is not applied and no segments are merged into the payload
(the processing step is only simulated by a fixed delay). -/
theorem processAndRespond_success_publishes (tempDir now : String)
    (r : RequestData) :
    (processAndRespondToKafka tempDir (Except.ok ()) now r).published
      = some { correlationId := r.correlationId,
               referenceTexts := r.referenceTexts,
               fileClaimCheck := r.fileClaimCheck,
               status := "Processed", timestamp := now, segments := none } := rfl

/-- C5: for every well-formed job message, the worker derives the temporary
download path by joining the system temp directory with the claim-check name
carried in the message, and passes that very name to the storage download, so
a job carrying claim check "f1.wav" downloads the blob named "f1.wav". -/
theorem processAndRespond_download_name (tempDir now : String)
    (dl : Except String Unit) (r : RequestData)
    (h : validateMessage (some r) = true) :
    (processAndRespondToKafka tempDir dl now r).downloadName = r.fileClaimCheck ∧
    (processAndRespondToKafka tempDir dl now r).downloadPath
      = pathJoin tempDir r.fileClaimCheck := by
  cases dl with
  | error e => exact ⟨rfl, rfl⟩
  | ok u => exact ⟨rfl, rfl⟩

/-- C5 witness: the scenario job carrying claim check "f1.wav" downloads the
blob named "f1.wav" into the temp directory. -/
theorem processAndRespond_download_name_witness :
    validateMessage (some req1) = true ∧
    (processAndRespondToKafka "/tmp" (Except.ok ()) "t0" req1).downloadName
      = "f1.wav" ∧
    (processAndRespondToKafka "/tmp" (Except.ok ()) "t0" req1).downloadPath
      = "/tmp/f1.wav" := by
  have h : validateMessage (some req1) = true := by decide
  have hmain := processAndRespond_download_name "/tmp" "t0" (Except.ok ()) req1 h
  exact ⟨h, hmain.1, by rw [hmain.2]; rfl⟩

/-- C8: a task-queue delivery whose parsed payload is null or whose
`correlationId` is missing/empty fails `validateMessage`, and the handler
acknowledges-and-drops it without ever invoking `processAndRespondToKafka`:
no download is attempted and no response is published for it. -/
theorem handler_rejects_invalid (tempDir now : String) (dl : Except String Unit)
    (parsed : Option RequestData)
    (h : parsed = none ∨ ∃ r, parsed = some r ∧ r.correlationId = "") :
    validateMessage parsed = false ∧
    (rabbitMqMessageHandler tempDir dl now parsed).worker = none ∧
    (rabbitMqMessageHandler tempDir dl now parsed).acked = true := by
  have hv : validateMessage parsed = false := by
    rcases h with h | ⟨r, hr, hc⟩
    · rw [h]; rfl
    · rw [hr]; simp [validateMessage, hc]
  refine ⟨hv, ?_, ?_⟩ <;> simp [rabbitMqMessageHandler, hv]

/-- C8 witness: a payload with an empty `correlationId` is dropped with no
worker effects; so is the null payload. -/
theorem handler_rejects_invalid_witness :
    validateMessage (some ⟨"", ["a"], "f1.wav"⟩) = false ∧
    (rabbitMqMessageHandler "/tmp" (Except.ok ()) "t0"
        (some ⟨"", ["a"], "f1.wav"⟩)).worker = none ∧
    (rabbitMqMessageHandler "/tmp" (Except.ok ()) "t0"
        (some ⟨"", ["a"], "f1.wav"⟩)).acked = true :=
  handler_rejects_invalid "/tmp" "t0" (Except.ok ()) (some ⟨"", ["a"], "f1.wav"⟩)
    (Or.inr ⟨⟨"", ["a"], "f1.wav"⟩, rfl, rfl⟩)

/-- C10: `loadSegmentsFromFile` is total over every outcome of the file read
and of the JSON parse — it never propagates a failure: a failing read or a
failing parse yields the empty segment list, and a successful read-and-parse
yields the parsed segments. -/
theorem loadSegmentsFromFile_total (readFile : Except String String)
    (parseSegments : String → Except String (List TextSegment)) :
    (∀ e, readFile = Except.error e →
      loadSegmentsFromFile readFile parseSegments = []) ∧
    (∀ s e, readFile = Except.ok s → parseSegments s = Except.error e →
      loadSegmentsFromFile readFile parseSegments = []) ∧
    (∀ s segs, readFile = Except.ok s → parseSegments s = Except.ok segs →
      loadSegmentsFromFile readFile parseSegments = segs) := by
  refine ⟨?_, ?_, ?_⟩
  · intro e he
    rw [he]; rfl
  · intro s e hs hp
    rw [hs]
    simp [loadSegmentsFromFile, Bind.bind, Except.bind, hp]
  · intro s segs hs hp
    rw [hs]
    simp [loadSegmentsFromFile, Bind.bind, Except.bind, hp]

/-- C10 witness: a failed read returns `[]`; a successful read whose parse
fails also returns `[]`. -/
theorem loadSegmentsFromFile_total_witness :
    loadSegmentsFromFile (Except.error "ENOENT") (fun _ => Except.ok [segHi]) = [] ∧
    loadSegmentsFromFile (Except.ok "not json") (fun _ => Except.error "SyntaxError") = [] :=
  ⟨(loadSegmentsFromFile_total (Except.error "ENOENT") (fun _ => Except.ok [segHi])).1
      "ENOENT" rfl,
   (loadSegmentsFromFile_total (Except.ok "not json")
      (fun _ => Except.error "SyntaxError")).2.1 "not json" "SyntaxError" rfl rfl⟩

end EnhanceAlign
